import Mathlib

/-!
# Verification of the report-generation pipeline (`reportgen.py`)

Shallow embedding of the core pipeline of `reportgen.py`:
file discovery (`Path(directory_path).glob('*')` plus suffix classification),
per-file loading with a `try/except` that prints an error line and continues,
`pd.concat` of all loaded frames, the statistics extraction
(`len`, `value_counts`, `Counter(...).most_common(5)`), and the
summary-string formatter.

Modelling decisions:
* A pandas cell is `Option String` (`none` = missing/NaN); a row is an
  association list from column name to cell, so a row coming from a table
  that lacks a column simply has no binding for it — exactly the
  `pd.concat(..., sort=False)` column-union semantics where such cells
  read back as NaN.
* Parsing itself happens inside pandas, not in the repository's code, so a
  `SourceFile` carries the parse outcome abstractly: the tables the parser
  yields before any exception (one per CSV file, one per sheet for a
  spreadsheet) and the exception message, if one is raised.
* `Path.glob('*')` on a path that does not exist, or that is a file,
  returns an empty iterator without raising (checked against CPython's
  pathlib); `DirState` models the three cases.
* `Counter` keeps keys in first-seen order and `most_common(5)` sorts
  descending by count, stably (ties keep first-seen order); this is
  embedded as a fold that bumps association-list counts plus a stable
  insertion sort descending by count.
* The cohere call and the wall clock are external collaborators: the
  pipeline is parameterised by an opaque `generate` function and a
  timestamp value.  `print` output is modelled as a list of emitted lines
  returned next to the result.
-/

namespace ReportGen

/-- A pandas cell: `none` models NaN/missing. -/
abbrev Cell := Option String

/-- A row of a dataframe: an association list from column name to cell. -/
abbrev Row := List (String × Cell)

/-- Look a column up in a row; `none` when the row has no binding for it. -/
def rowLookup (c : String) : Row → Option Cell
  | [] => none
  | (k, v) :: r => if k = c then some v else rowLookup c r

/-- Reading a cell: a missing binding reads back as NaN (`none`),
mirroring column-union concatenation in pandas. -/
def getCell (r : Row) (c : String) : Cell :=
  match rowLookup c r with
  | some v => v
  | none => none

/-- One parsed dataframe: a CSV file, or one sheet of a spreadsheet. -/
structure Table where
  cols : List String
  rows : List Row
deriving DecidableEq

/-- Index of the last `'.'` in a character list, as `str.rfind('.')`. -/
def lastDotIdx : List Char → Option Nat
  | [] => none
  | c :: cs =>
    match lastDotIdx cs with
    | some i => some (i + 1)
    | none => if c = '.' then some 0 else none

/-- `pathlib.Path.suffix`: the final extension with its dot, empty when the
name has no dot, starts with its only dot, or ends with a dot. -/
def pathSuffix (name : String) : String :=
  match lastDotIdx name.data with
  | some i => if 0 < i ∧ i + 1 < name.data.length then { data := name.data.drop i } else ""
  | none => ""

/-- One directory entry together with the outcome pandas would produce for
it: the tables parsed before any exception (for a `.csv` file at most one;
for a spreadsheet one per sheet) and the exception message if parsing
raised.  A file that fails to parse outright has `tables = []` and
`err = some msg`. -/
structure SourceFile where
  name : String
  tables : List Table
  err : Option String
deriving DecidableEq

/-- `str.lower()` as applied to a path suffix (character-wise ASCII
lower-casing, matching Python on the ASCII suffixes involved). -/
def strLower (s : String) : String := { data := s.data.map Char.toLower }

/-- The suffix test of the loader loop: `.csv`, `.xls`, `.xlsx`
(lower-cased), anything else is skipped silently. -/
def eligible (f : SourceFile) : Bool :=
  let s := strLower (pathSuffix f.name)
  s == ".csv" || s == ".xls" || s == ".xlsx"

/-- One iteration of the loader loop: on an eligible file append the tables
pandas yields, and if parsing raised, print
`Error reading {file}: {e}` and continue. -/
def loadStep (acc : List Table × List String) (f : SourceFile) :
    List Table × List String :=
  if eligible f then
    (acc.1 ++ f.tables,
     acc.2 ++ (match f.err with
       | some e => ["Error reading " ++ f.name ++ ": " ++ e]
       | none => []))
  else acc

/-- The loader loop over all directory entries: accumulated `all_data`
and the printed error lines. -/
def loadAll (files : List SourceFile) : List Table × List String :=
  files.foldl loadStep ([], [])

/-- The column union of `pd.concat(..., sort=False)`: first-appearance
order across the input frames. -/
def unionCols (tables : List Table) : List String :=
  tables.foldl (fun acc t => acc ++ t.cols.filter (fun c => !acc.contains c)) []

/-- The pandas exception the pipeline can die with. -/
inductive PdError
  | valueError (msg : String)
deriving DecidableEq

/-- `pd.concat(all_data, ignore_index=True, sort=False)`: raises
`ValueError: No objects to concatenate` on an empty list, otherwise
concatenates all rows under the column union. -/
def pdConcat (tables : List Table) : Except PdError Table :=
  if tables = [] then .error (.valueError "No objects to concatenate")
  else .ok { cols := unionCols tables, rows := (tables.map Table.rows).flatten }

/-- `combined_df[c].dropna()`: the non-null values of column `c`, in row
order. -/
def dropnaCol (t : Table) (c : String) : List String :=
  t.rows.filterMap (fun r => getCell r c)

/-- Add one observed value to `Counter`-style counts kept in first-seen
key order. -/
def bump : List (String × Nat) → String → List (String × Nat)
  | [], v => [(v, 1)]
  | (w, n) :: rest, v => if w = v then (w, n + 1) :: rest else (w, n) :: bump rest v

/-- `collections.Counter` over a value sequence: counts keyed in
first-seen order. -/
def countValues (vals : List String) : List (String × Nat) :=
  vals.foldl bump []

/-- Stable descending insertion by count: the new element goes before the
first entry whose count is not larger, so earlier-inserted elements keep
priority among ties. -/
def insertByCount (x : String × Nat) : List (String × Nat) → List (String × Nat)
  | [] => [x]
  | y :: ys => if y.2 ≤ x.2 then x :: y :: ys else y :: insertByCount x ys

/-- Stable sort, descending by count — the order `Counter.most_common`
reports (`heapq.nlargest` is stable over dict insertion order). -/
def sortByCountDesc : List (String × Nat) → List (String × Nat)
  | [] => []
  | x :: xs => insertByCount x (sortByCountDesc xs)

/-- `Counter(vals).most_common(n)`. -/
def mostCommon (n : Nat) (vals : List String) : List (String × Nat) :=
  (sortByCountDesc (countValues vals)).take n

/-- `Series.value_counts().to_dict()` as an ordered association list:
full distribution over non-null values, descending by count. -/
def valueCounts (vals : List String) : List (String × Nat) :=
  sortByCountDesc (countValues vals)

/-- The statistics the pipeline extracts from the combined dataframe. -/
structure Stats where
  total_rows : Nat
  severity_counts : List (String × Nat)
  top_vulnerabilities : List (String × Nat)
  impacted_os : List (String × Nat)
  affected_software : List (String × Nat)
  cve_counts : List (String × Nat)
deriving DecidableEq

/-- Lines 31–40 of `reportgen.py`: each statistic guarded by a column
membership test on the combined dataframe. -/
def computeStats (df : Table) : Stats :=
  { total_rows := df.rows.length
    severity_counts :=
      if "Severity" ∈ df.cols then valueCounts (dropnaCol df "Severity") else []
    top_vulnerabilities :=
      if "Problem Name" ∈ df.cols then mostCommon 5 (dropnaCol df "Problem Name") else []
    impacted_os :=
      if "OS Name" ∈ df.cols then mostCommon 5 (dropnaCol df "OS Name") else []
    affected_software :=
      if "Software Name" ∈ df.cols then mostCommon 5 (dropnaCol df "Software Name") else []
    cve_counts :=
      if "CVE" ∈ df.cols then mostCommon 5 (dropnaCol df "CVE") else [] }

/-- Python `repr` of a string value as it appears inside `str(dict)` /
`str(list)` (cell values in this model hold no quotes). -/
def pyQuote (s : String) : String := "\x27" ++ s ++ "\x27"

/-- Python `repr` of a `(value, count)` tuple. -/
def pyPair (p : String × Nat) : String :=
  "(" ++ pyQuote p.1 ++ ", " ++ toString p.2 ++ ")"

/-- Python `str` of a list of tuples, as interpolated by the f-string. -/
def pyList (l : List (String × Nat)) : String :=
  "[" ++ String.intercalate ", " (l.map pyPair) ++ "]"

/-- Python `str` of one dict entry. -/
def pyDictEntry (p : String × Nat) : String :=
  pyQuote p.1 ++ ": " ++ toString p.2

/-- Python `str` of a dict in insertion order, as interpolated by the
f-string. -/
def pyDict (l : List (String × Nat)) : String :=
  "\x7b" ++ String.intercalate ", " (l.map pyDictEntry) ++ "\x7d"

/-- The `summary_info` f-string of lines 42–47 (each source line ends in a
literal `\n` followed by the newline of the triple-quoted string). -/
def summaryInfo (st : Stats) : String :=
  "Total vulnerabilities recorded: " ++ toString st.total_rows ++
  "\n\nSeverity Breakdown: " ++ pyDict st.severity_counts ++
  "\n\nTop 5 Most Frequent Vulnerabilities:\n" ++ pyList st.top_vulnerabilities ++
  "\n\nTop 5 Most Impacted Operating Systems:\n" ++ pyList st.impacted_os ++
  "\n\nTop 5 Most Affected Software:\n" ++ pyList st.affected_software ++
  "\n\nMost Repeated CVEs:\n" ++ pyList st.cve_counts ++
  "\n"

/-- The prompt handed to the external generation service (line 50). -/
def promptOf (summary : String) : String :=
  "As a cybersecurity analyst, analyze the following data summary:\n\n" ++ summary ++
  "\n\nIdentify:\n1. Key risks and concerns\n2. Patterns in vulnerability distribution" ++
  "\n3. Any major security trends\n4. Recommendations to mitigate the risks\n"

/-- The dictionary `process_files` returns (lines 59–63). -/
structure Analysis where
  key_statistics : String
  ai_analysis : String
  timestamp : String
deriving DecidableEq

/-- The state of the input path.  `Path(p).glob('*')` yields nothing, and
raises nothing, when the path is missing or is not a directory (checked
against CPython's pathlib). -/
inductive DirState
  | missing
  | notADirectory
  | dir (entries : List SourceFile)
deriving DecidableEq

/-- What `Path(directory_path).glob('*')` yields. -/
def globEntries : DirState → List SourceFile
  | .missing => []
  | .notADirectory => []
  | .dir es => es

/-- `process_files(directory_path, ...)`, with the cohere client and the
clock abstracted as `generate` and `now`.  Returns the produced value (or
the pandas exception the run dies with) next to the printed lines. -/
def processFiles (generate : String → String) (now : String) (d : DirState) :
    Except PdError Analysis × List String :=
  let loaded := loadAll (globEntries d)
  match pdConcat loaded.1 with
  | .error e => (.error e, loaded.2)
  | .ok df =>
    let st := computeStats df
    let summary := summaryInfo st
    (.ok { key_statistics := summary
           ai_analysis := generate (promptOf summary)
           timestamp := now },
     loaded.2)

/-- The statistics a run produces, when it survives the merge. -/
def runStats (d : DirState) : Except PdError Stats :=
  (pdConcat (loadAll (globEntries d)).1).map computeStats

/-!  Specification-side definitions, used to state refinement claims. -/

/-- First occurrences of each distinct value, in first-seen order — the
spec's description of the key order of a frequency count. -/
def firstSeen (vals : List String) : List String :=
  vals.foldl (fun acc v => if v ∈ acc then acc else acc ++ [v]) []

/-- The spec's description of a frequency count: each distinct value, in
first-seen order, paired with its number of occurrences. -/
def specCounts (vals : List String) : List (String × Nat) :=
  (firstSeen vals).map (fun v => (v, vals.count v))

/-- The descending-by-count relation `sortByCountDesc` establishes. -/
def CountGE (a b : String × Nat) : Prop := b.2 ≤ a.2

/-- The claim C3 property of one ranking: it is the top five of the
first-seen frequency count under a stable descending sort, and when more
than five distinct values exist it has exactly five entries, each counting
at least as much as any excluded value. -/
def RankingSpec (vals : List String) (r : List (String × Nat)) : Prop :=
  r = (sortByCountDesc (specCounts vals)).take 5 ∧
  (5 < (specCounts vals).length →
    r.length = 5 ∧
      ∀ p ∈ r, ∀ q ∈ specCounts vals, q.1 ∉ r.map Prod.fst → q.2 ≤ p.2)

/-- `ts` occur in `s`, in order and without overlap. -/
def ContainsInOrder : List String → String → Prop
  | [], _ => True
  | t :: ts, s => ∃ pre rest : String, s = pre ++ t ++ rest ∧ ContainsInOrder ts rest

/-! ## Concrete fixtures used by witnesses and counterexamples -/

/-- A one-column table holding the given non-null values. -/
def exTable (c : String) (vs : List String) : Table :=
  { cols := [c], rows := vs.map (fun v => [(c, some v)]) }

/-- A CSV file that parses into one two-row table. -/
def exFileA : SourceFile :=
  { name := "a.csv", tables := [exTable "CVE" ["x", "y"]], err := none }

/-- A spreadsheet whose two sheets parse into two tables. -/
def exFileB : SourceFile :=
  { name := "b.xlsx"
    tables := [exTable "CVE" ["x"], exTable "OS Name" ["w"]]
    err := none }

/-- A corrupt CSV file: parsing raises before producing any table. -/
def exBadFile : SourceFile :=
  { name := "data.csv", tables := [], err := some "bad header" }

/-- A directory holding two well-formed files. -/
def exDirC1 : DirState := DirState.dir [exFileA, exFileB]

/-- A table with more than five distinct values in every ranked column. -/
def exTableC3 : Table :=
  { cols := ["Problem Name", "OS Name", "Software Name", "CVE"]
    rows :=
      [["P1", "O1", "S1", "C1"], ["P2", "O2", "S2", "C2"], ["P3", "O3", "S3", "C3"],
       ["P4", "O4", "S4", "C4"], ["P5", "O5", "S5", "C5"], ["P6", "O6", "S6", "C6"],
       ["P1", "O1", "S1", "C1"]].map
        (fun r =>
          [("Problem Name", some (r.getD 0 "")), ("OS Name", some (r.getD 1 "")),
           ("Software Name", some (r.getD 2 "")), ("CVE", some (r.getD 3 ""))]) }

/-- A table with none of the recognized columns. -/
def exTableC6 : Table :=
  { cols := ["Other"], rows := [[("Other", some "x")]] }

/-- Six distinct single-occurrence values. -/
def exTableC7 : Table := exTable "CVE" ["a", "b", "c", "d", "e", "f"]

/-- The same six values with the row order reversed. -/
def exTableC7R : Table := exTable "CVE" ["f", "e", "d", "c", "b", "a"]

/-- A table carrying a `Severity` column with one null cell. -/
def exTableC10 : Table :=
  { cols := ["Severity", "CVE"]
    rows :=
      [[("Severity", some "High"), ("CVE", some "c1")],
       [("Severity", none), ("CVE", some "c2")],
       [("Severity", some "High"), ("CVE", some "c3")]] }

/-- A table lacking the `Severity` column. -/
def exTableNoSev : Table := exTable "CVE" ["c4"]

/-- A table carrying the `Severity` column. -/
def exTableSev : Table :=
  { cols := ["Severity"], rows := [[("Severity", some "Low")]] }

/-! ## Loader lemmas -/

/-- The tables one directory entry contributes to `all_data`. -/
def fileTables (f : SourceFile) : List Table :=
  if eligible f then f.tables else []

/-- The error lines one directory entry contributes to standard output. -/
def fileMsgs (f : SourceFile) : List String :=
  if eligible f then
    (match f.err with
     | some e => ["Error reading " ++ f.name ++ ": " ++ e]
     | none => [])
  else []

theorem loadStep_eq (acc : List Table × List String) (f : SourceFile) :
    loadStep acc f = (acc.1 ++ fileTables f, acc.2 ++ fileMsgs f) := by
  unfold loadStep fileTables fileMsgs
  cases h : eligible f <;> simp [h]

theorem foldl_loadStep (files : List SourceFile) :
    ∀ t p, files.foldl loadStep (t, p) =
      (t ++ (files.map fileTables).flatten, p ++ (files.map fileMsgs).flatten) := by
  induction files with
  | nil => intro t p; simp
  | cons f fs ih =>
    intro t p
    simp only [List.foldl_cons, loadStep_eq, ih, List.map_cons, List.flatten_cons,
      List.append_assoc]

theorem loadAll_eq (files : List SourceFile) :
    loadAll files =
      ((files.map fileTables).flatten, (files.map fileMsgs).flatten) := by
  simpa [loadAll] using foldl_loadStep files [] []

/-! ## Generic list lemmas -/

theorem length_filterMap_lt {α β : Type} (f : α → Option β) :
    ∀ {l : List α} {a : α}, a ∈ l → f a = none →
      (l.filterMap f).length < l.length := by
  intro l
  induction l with
  | nil => intro a h; cases h
  | cons x xs ih =>
    intro a ha hfa
    rcases List.mem_cons.mp ha with h | h
    · subst h
      rw [List.filterMap_cons, hfa]
      exact Nat.lt_succ_of_le (List.length_filterMap_le f xs)
    · rw [List.filterMap_cons]
      cases hfx : f x with
      | none => exact Nat.lt_succ_of_lt (ih h hfa)
      | some b => simpa using Nat.succ_lt_succ (ih h hfa)

/-! ## Sorting lemmas: `sortByCountDesc` is a stable descending sort -/

theorem perm_insertByCount (x : String × Nat) (l : List (String × Nat)) :
    List.Perm (insertByCount x l) (x :: l) := by
  induction l with
  | nil => simp [insertByCount]
  | cons y ys ih =>
    unfold insertByCount
    by_cases h : y.2 ≤ x.2
    · simp [h]
    · simp only [h, if_false]
      exact (ih.cons y).trans (List.Perm.swap x y ys)

theorem perm_sortByCountDesc (l : List (String × Nat)) :
    List.Perm (sortByCountDesc l) l := by
  induction l with
  | nil => simp [sortByCountDesc]
  | cons x xs ih =>
    exact (perm_insertByCount x (sortByCountDesc xs)).trans (ih.cons x)

theorem mem_sortByCountDesc {p : String × Nat} {l : List (String × Nat)} :
    p ∈ sortByCountDesc l ↔ p ∈ l :=
  (perm_sortByCountDesc l).mem_iff

theorem pairwise_insertByCount {x : String × Nat} {l : List (String × Nat)}
    (h : List.Pairwise CountGE l) :
    List.Pairwise CountGE (insertByCount x l) := by
  induction l with
  | nil => simp [insertByCount, CountGE]
  | cons y ys ih =>
    rcases List.pairwise_cons.mp h with ⟨hy, hys⟩
    unfold insertByCount
    by_cases hle : y.2 ≤ x.2
    · simp only [hle, if_true]
      refine List.pairwise_cons.mpr ⟨?_, h⟩
      intro z hz
      rcases List.mem_cons.mp hz with rfl | hz
      · exact hle
      · exact Nat.le_trans (hy z hz) hle
    · simp only [hle, if_false]
      refine List.pairwise_cons.mpr ⟨?_, ih hys⟩
      intro z hz
      have hz' : z ∈ x :: ys := (perm_insertByCount x ys).mem_iff.mp hz
      rcases List.mem_cons.mp hz' with rfl | hz'
      · exact Nat.le_of_lt (Nat.lt_of_not_le hle)
      · exact hy z hz'

theorem pairwise_sortByCountDesc (l : List (String × Nat)) :
    List.Pairwise CountGE (sortByCountDesc l) := by
  induction l with
  | nil => simp [sortByCountDesc]
  | cons x xs ih => exact pairwise_insertByCount ih

/-! ## `firstSeen` / `countValues` lemmas -/

theorem mem_foldl_firstSeen (vals : List String) :
    ∀ acc w, (w ∈ vals.foldl (fun acc v => if v ∈ acc then acc else acc ++ [v]) acc) ↔
      w ∈ acc ∨ w ∈ vals := by
  induction vals with
  | nil => intro acc w; simp
  | cons v vs ih =>
    intro acc w
    rw [List.foldl_cons, ih]
    by_cases hv : v ∈ acc
    · simp only [hv, if_true, List.mem_cons]
      constructor
      · rintro (h | h)
        · exact Or.inl h
        · exact Or.inr (Or.inr h)
      · rintro (h | h | h)
        · exact Or.inl h
        · exact Or.inl (by rw [h]; exact hv)
        · exact Or.inr h
    · simp [hv, or_assoc]

theorem mem_firstSeen {w : String} {vals : List String} :
    w ∈ firstSeen vals ↔ w ∈ vals := by
  unfold firstSeen
  rw [mem_foldl_firstSeen]
  simp

theorem nodup_foldl_firstSeen (vals : List String) :
    ∀ acc, acc.Nodup →
      (vals.foldl (fun acc v => if v ∈ acc then acc else acc ++ [v]) acc).Nodup := by
  induction vals with
  | nil => intro acc h; simpa using h
  | cons v vs ih =>
    intro acc h
    rw [List.foldl_cons]
    apply ih
    by_cases hv : v ∈ acc
    · simpa [hv] using h
    · simp [hv, List.nodup_append, h]

theorem nodup_firstSeen (vals : List String) : (firstSeen vals).Nodup :=
  nodup_foldl_firstSeen vals [] (by simp)

theorem firstSeen_append_singleton (p : List String) (v : String) :
    firstSeen (p ++ [v]) =
      if v ∈ firstSeen p then firstSeen p else firstSeen p ++ [v] := by
  unfold firstSeen
  rw [List.foldl_append]
  rfl

theorem count_append_singleton (p : List String) (v w : String) :
    (p ++ [v]).count w = p.count w + (if w = v then 1 else 0) := by
  rw [List.count_append]
  by_cases h : w = v
  · subst h; simp
  · have h' : ¬ (v = w) := fun hh => h hh.symm
    simp [List.count_singleton, h, h']

theorem bump_map (v : String) (g : String → Nat) :
    ∀ L : List String, L.Nodup →
      bump (L.map fun w => (w, g w)) v =
        if v ∈ L then L.map (fun w => (w, if w = v then g w + 1 else g w))
        else (L.map fun w => (w, g w)) ++ [(v, 1)] := by
  intro L
  induction L with
  | nil => intro _; simp [bump]
  | cons w ws ih =>
    intro hnd
    rcases List.nodup_cons.mp hnd with ⟨hw, hws⟩
    simp only [List.map_cons, bump]
    by_cases hwv : w = v
    · subst hwv
      rw [if_pos rfl, if_pos (List.mem_cons.mpr (Or.inl rfl))]
      congr 1
      · simp
      · apply List.map_congr_left
        intro u hu
        have huw : ¬ (u = w) := fun h => hw (by rw [← h]; exact hu)
        simp [huw]
    · rw [if_neg hwv, ih hws]
      by_cases hv : v ∈ ws
      · rw [if_pos hv, if_pos (List.mem_cons.mpr (Or.inr hv))]
        congr 1
        simp [hwv]
      · have hv' : v ∉ w :: ws := by
          intro h
          rcases List.mem_cons.mp h with h | h
          · exact hwv h.symm
          · exact hv h
        rw [if_neg hv, if_neg hv', List.cons_append]

theorem bump_specCounts (p : List String) (v : String) :
    bump (specCounts p) v = specCounts (p ++ [v]) := by
  unfold specCounts
  rw [bump_map v (fun w => p.count w) (firstSeen p) (nodup_firstSeen p),
    firstSeen_append_singleton]
  by_cases hv : v ∈ firstSeen p
  · rw [if_pos hv, if_pos hv]
    apply List.map_congr_left
    intro u _
    rw [count_append_singleton]
    by_cases huv : u = v
    · simp [huv]
    · simp [huv]
  · rw [if_neg hv, if_neg hv, List.map_append]
    have hvp : v ∉ p := fun h => hv (mem_firstSeen.mpr h)
    congr 1
    · apply List.map_congr_left
      intro u hu
      have huv : ¬ (u = v) := fun h => hv (by rw [← h]; exact hu)
      rw [count_append_singleton]
      simp [huv]
    · rw [List.map_singleton, count_append_singleton]
      simp [List.count_eq_zero_of_not_mem hvp]

theorem foldl_bump (vals : List String) :
    ∀ p, vals.foldl bump (specCounts p) = specCounts (p ++ vals) := by
  induction vals with
  | nil => intro p; simp
  | cons v vs ih =>
    intro p
    rw [List.foldl_cons, bump_specCounts, ih, List.append_assoc, List.singleton_append]

/-- The `Counter` embedding agrees with the spec's description of frequency
counting: distinct values in first-seen order, each with its number of
occurrences. -/
theorem countValues_eq_specCounts (vals : List String) :
    countValues vals = specCounts vals :=
  foldl_bump vals []

theorem mem_specCounts {q : String × Nat} {vals : List String} :
    q ∈ specCounts vals ↔ q.1 ∈ vals ∧ q.2 = vals.count q.1 := by
  unfold specCounts
  rw [List.mem_map]
  constructor
  · rintro ⟨w, hw, hq⟩
    rw [← hq]
    exact ⟨mem_firstSeen.mp hw, rfl⟩
  · rintro ⟨h1, h2⟩
    exact ⟨q.1, mem_firstSeen.mpr h1, by rw [← h2]⟩

/-! ## Summation lemmas -/

theorem sum_map_add {α : Type} (f g : α → Nat) :
    ∀ L : List α, (L.map (fun w => f w + g w)).sum = (L.map f).sum + (L.map g).sum := by
  intro L
  induction L with
  | nil => simp
  | cons x xs ih => simp [ih]; omega

theorem sum_map_ite_zero (v : String) :
    ∀ L : List String, v ∉ L →
      (L.map (fun w => if w = v then (1 : Nat) else 0)).sum = 0 := by
  intro L
  induction L with
  | nil => intro _; simp
  | cons x xs ih =>
    intro h
    have hx : ¬ (x = v) := fun hh => h (by rw [hh]; exact List.mem_cons_self v xs)
    have hxs : v ∉ xs := fun hh => h (List.mem_cons.mpr (Or.inr hh))
    simp [hx, ih hxs]

theorem sum_map_ite_one (v : String) :
    ∀ L : List String, L.Nodup → v ∈ L →
      (L.map (fun w => if w = v then (1 : Nat) else 0)).sum = 1 := by
  intro L
  induction L with
  | nil => intro _ h; cases h
  | cons x xs ih =>
    intro hnd hv
    rcases List.nodup_cons.mp hnd with ⟨hx, hxs⟩
    rcases List.mem_cons.mp hv with h | h
    · have hxv : x = v := h.symm
      subst hxv
      simp [sum_map_ite_zero x xs hx]
    · have hxv : ¬ (x = v) := fun hh => hx (by rw [hh]; exact h)
      simp [hxv, ih hxs h]

theorem sum_counts_firstSeen (vals : List String) :
    ((firstSeen vals).map (fun w => vals.count w)).sum = vals.length := by
  induction vals using List.reverseRecOn with
  | nil => rfl
  | append_singleton p v ih =>
    rw [firstSeen_append_singleton]
    by_cases hv : v ∈ firstSeen p
    · rw [if_pos hv]
      have hmap : (firstSeen p).map (fun w => (p ++ [v]).count w) =
          (firstSeen p).map (fun w => p.count w + (if w = v then 1 else 0)) := by
        apply List.map_congr_left
        intro u _
        rw [count_append_singleton]
      rw [hmap, sum_map_add, ih, sum_map_ite_one v (firstSeen p) (nodup_firstSeen p) hv]
      simp
    · rw [if_neg hv, List.map_append]
      have hvp : v ∉ p := fun h => hv (mem_firstSeen.mpr h)
      have hmap : (firstSeen p).map (fun w => (p ++ [v]).count w) =
          (firstSeen p).map (fun w => p.count w) := by
        apply List.map_congr_left
        intro u hu
        have huv : ¬ (u = v) := fun h => hv (by rw [← h]; exact hu)
        rw [count_append_singleton]
        simp [huv]
      rw [List.sum_append, hmap, ih, List.map_singleton, count_append_singleton]
      simp [List.count_eq_zero_of_not_mem hvp]

/-- The counts of `specCounts` add up to the number of counted values. -/
theorem sum_specCounts (vals : List String) :
    ((specCounts vals).map Prod.snd).sum = vals.length := by
  unfold specCounts
  rw [List.map_map]
  exact sum_counts_firstSeen vals

/-- In a descending-sorted list, an element with strictly larger count
precedes one with strictly smaller count. -/
theorem sublist_pair_of_pairwise :
    ∀ {l : List (String × Nat)} {p q : String × Nat},
      List.Pairwise CountGE l → p ∈ l → q ∈ l → q.2 < p.2 →
      List.Sublist [p, q] l := by
  intro l
  induction l with
  | nil => intro p q _ hp; cases hp
  | cons x xs ih =>
    intro p q hpw hp hq hlt
    rcases List.pairwise_cons.mp hpw with ⟨hx, hxs⟩
    rcases List.mem_cons.mp hp with rfl | hp
    · have hq' : q ∈ xs := by
        rcases List.mem_cons.mp hq with rfl | hq'
        · exact absurd hlt (Nat.lt_irrefl _)
        · exact hq'
      exact (List.singleton_sublist.mpr hq').cons₂ p
    · have hq' : q ∈ xs := by
        rcases List.mem_cons.mp hq with h0 | hq'
        · exfalso
          have h1 : p.2 ≤ x.2 := hx p hp
          rw [h0] at hlt
          omega
        · exact hq'
      exact (ih hxs hp hq' hlt).cons x

/-- A row whose keys all avoid `c` reads back `none` for `c`. -/
theorem rowLookup_eq_none {c : String} :
    ∀ {r : Row}, (∀ p ∈ r, p.1 ≠ c) → rowLookup c r = none := by
  intro r
  induction r with
  | nil => intro _; rfl
  | cons p ps ih =>
    intro h
    have hp : p.1 ≠ c := h p (List.mem_cons_self p ps)
    cases p with
    | mk k v =>
      simp only [rowLookup, if_neg hp]
      exact ih fun q hq => h q (List.mem_cons.mpr (Or.inr hq))

/-- The central C3 lemma: `most_common(5)` satisfies the spec's ranking
contract. -/
theorem rankingSpec_mostCommon (vals : List String) :
    RankingSpec vals (mostCommon 5 vals) := by
  constructor
  · unfold mostCommon
    rw [countValues_eq_specCounts]
  · intro hlen
    have hr : mostCommon 5 vals = (sortByCountDesc (specCounts vals)).take 5 := by
      unfold mostCommon
      rw [countValues_eq_specCounts]
    constructor
    · rw [hr, List.length_take, (perm_sortByCountDesc (specCounts vals)).length_eq]
      omega
    · intro p hp q hq hq1
      have hsorted := pairwise_sortByCountDesc (specCounts vals)
      have hql : q ∈ sortByCountDesc (specCounts vals) := mem_sortByCountDesc.mpr hq
      have hsplit := List.take_append_drop 5 (sortByCountDesc (specCounts vals))
      have hq2 : q ∈ (sortByCountDesc (specCounts vals)).drop 5 := by
        have hql' : q ∈ (sortByCountDesc (specCounts vals)).take 5 ++
            (sortByCountDesc (specCounts vals)).drop 5 := by
          rw [hsplit]; exact hql
        rcases List.mem_append.mp hql' with h | h
        · exact absurd (by rw [hr]; exact List.mem_map_of_mem Prod.fst h) hq1
        · exact h
      have hpw : ∀ a ∈ (sortByCountDesc (specCounts vals)).take 5,
          ∀ b ∈ (sortByCountDesc (specCounts vals)).drop 5, CountGE a b := by
        have h := hsorted
        rw [← hsplit] at h
        exact (List.pairwise_append.mp h).2.2
      exact hpw p (by rw [hr] at hp; exact hp) q hq2

/-- Whatever the merge outcome, the printed lines of a run are exactly the
loader's error lines. -/
theorem processFiles_snd (generate : String → String) (now : String)
    (files : List SourceFile) :
    (processFiles generate now (DirState.dir files)).2 = (loadAll files).2 := by
  simp only [processFiles, globEntries]
  cases hc : pdConcat (loadAll files).1 <;> simp [hc]

/-- The caller-visible result of a run depends only on the tables the
loader produced. -/
theorem processFiles_fst_congr (generate : String → String) (now : String)
    {files files' : List SourceFile}
    (h : (loadAll files).1 = (loadAll files').1) :
    (processFiles generate now (DirState.dir files)).1 =
      (processFiles generate now (DirState.dir files')).1 := by
  simp only [processFiles, globEntries]
  rw [h]
  cases hc : pdConcat (loadAll files').1 <;> simp [hc]

/-! ## Claim theorems -/

/-- C1: for every run whose loader produced at least one table, the
`total_rows` statistic equals the sum of the row counts of every table the
loader produced. -/
theorem C1_total_rows_eq_sum_of_loaded (d : DirState)
    (h : (loadAll (globEntries d)).1 ≠ []) :
    ∃ s : Stats, runStats d = Except.ok s ∧
      s.total_rows = ((loadAll (globEntries d)).1.map (fun t => t.rows.length)).sum := by
  unfold runStats pdConcat
  rw [if_neg h]
  refine ⟨_, rfl, ?_⟩
  show (((loadAll (globEntries d)).1.map Table.rows).flatten).length = _
  rw [List.length_flatten, List.map_map]
  rfl

theorem C1_witness :
    (loadAll (globEntries exDirC1)).1 ≠ [] ∧
    ∃ s : Stats, runStats exDirC1 = Except.ok s ∧
      s.total_rows = ((loadAll (globEntries exDirC1)).1.map (fun t => t.rows.length)).sum :=
  ⟨by decide, C1_total_rows_eq_sum_of_loaded exDirC1 (by decide)⟩

/-- C2 (code bug): when no table survives loading — an empty directory or
one whose only file fails to parse — the run does not fail with a distinct
`EmptyDataset` error; it dies inside `pd.concat` with the pandas exception
`ValueError: No objects to concatenate`. -/
theorem C2_no_tables_crashes_in_concat :
    processFiles (fun _ => "") "ts" (DirState.dir []) =
      (Except.error (PdError.valueError "No objects to concatenate"), []) ∧
    processFiles (fun _ => "") "ts" (DirState.dir [exBadFile]) =
      (Except.error (PdError.valueError "No objects to concatenate"),
       ["Error reading data.csv: bad header"]) := by
  constructor
  · rfl
  · rfl

/-- C5 (code bug): a missing path, or a path that is not a directory,
produces no `DirectoryNotFound` error naming the directory:
`Path.glob` silently yields nothing and the run dies later in `pd.concat`
with the unrelated pandas `ValueError`. -/
theorem C5_missing_directory_not_reported :
    processFiles (fun _ => "") "ts" DirState.missing =
      (Except.error (PdError.valueError "No objects to concatenate"), []) ∧
    processFiles (fun _ => "") "ts" DirState.notADirectory =
      (Except.error (PdError.valueError "No objects to concatenate"), []) := by
  constructor
  · rfl
  · rfl

/-- C6: each recognized column that is absent from the combined dataset
yields an empty ranking (empty mapping for `Severity`), no error is
raised (the aggregation is total), and the remaining statistics — here the
row count — are still computed. -/
theorem C6_missing_columns_yield_empty_results (df : Table) :
    ("Severity" ∉ df.cols → (computeStats df).severity_counts = []) ∧
    ("Problem Name" ∉ df.cols → (computeStats df).top_vulnerabilities = []) ∧
    ("OS Name" ∉ df.cols → (computeStats df).impacted_os = []) ∧
    ("Software Name" ∉ df.cols → (computeStats df).affected_software = []) ∧
    ("CVE" ∉ df.cols → (computeStats df).cve_counts = []) ∧
    (computeStats df).total_rows = df.rows.length := by
  refine ⟨?_, ?_, ?_, ?_, ?_, rfl⟩ <;> intro h <;> simp [computeStats, h]

theorem C6_witness :
    (computeStats exTableC6).severity_counts = [] ∧
    (computeStats exTableC6).top_vulnerabilities = [] ∧
    (computeStats exTableC6).impacted_os = [] ∧
    (computeStats exTableC6).affected_software = [] ∧
    (computeStats exTableC6).cve_counts = [] ∧
    (computeStats exTableC6).total_rows = exTableC6.rows.length :=
  ⟨(C6_missing_columns_yield_empty_results exTableC6).1 (by decide),
   (C6_missing_columns_yield_empty_results exTableC6).2.1 (by decide),
   (C6_missing_columns_yield_empty_results exTableC6).2.2.1 (by decide),
   (C6_missing_columns_yield_empty_results exTableC6).2.2.2.1 (by decide),
   (C6_missing_columns_yield_empty_results exTableC6).2.2.2.2.1 (by decide),
   (C6_missing_columns_yield_empty_results exTableC6).2.2.2.2.2⟩

/-- C3: every ranking computed for a column present in the combined
dataset is the first-seen frequency count, stably sorted descending by
count and truncated to five; with more than five distinct values it has
exactly five entries, each counting no less than any excluded value. -/
theorem C3_rankings_count_sort_truncate (df : Table) :
    ("Problem Name" ∈ df.cols →
      RankingSpec (dropnaCol df "Problem Name") (computeStats df).top_vulnerabilities) ∧
    ("OS Name" ∈ df.cols →
      RankingSpec (dropnaCol df "OS Name") (computeStats df).impacted_os) ∧
    ("Software Name" ∈ df.cols →
      RankingSpec (dropnaCol df "Software Name") (computeStats df).affected_software) ∧
    ("CVE" ∈ df.cols →
      RankingSpec (dropnaCol df "CVE") (computeStats df).cve_counts) := by
  refine ⟨?_, ?_, ?_, ?_⟩ <;> intro h <;> simp only [computeStats] <;> rw [if_pos h] <;>
    exact rankingSpec_mostCommon _

theorem C3_witness :
    RankingSpec (dropnaCol exTableC3 "CVE") (computeStats exTableC3).cve_counts :=
  (C3_rankings_count_sort_truncate exTableC3).2.2.2 (by decide)

/-- C7 (counterexample): with six distinct single-occurrence values, the
truncated top-5 ranking of a row-reversed copy does not contain the same
(value, count) pairs — `("a", 1)` survives in one order and is cut in the
other. -/
theorem C7_counterexample :
    exTableC7R.rows.Perm exTableC7.rows ∧
    ("a", 1) ∈ (computeStats exTableC7).cve_counts ∧
    ("a", 1) ∉ (computeStats exTableC7R).cve_counts := by
  refine ⟨by decide, by decide, by decide⟩

/-- C7 (amended): over the untruncated, sorted frequency count the claim
holds — a row permutation yields the same set of (value, count) pairs, and
any two entries with distinct counts appear in the same relative order in
both sorted counts; only the truncated top five may differ in which
boundary-tied values it retains. -/
theorem C7_perm_invariance_before_truncation (df df' : Table) (c : String)
    (hp : df.rows.Perm df'.rows) :
    (∀ q : String × Nat,
        q ∈ sortByCountDesc (countValues (dropnaCol df c)) ↔
        q ∈ sortByCountDesc (countValues (dropnaCol df' c))) ∧
    (∀ p q : String × Nat,
        p ∈ sortByCountDesc (countValues (dropnaCol df c)) →
        q ∈ sortByCountDesc (countValues (dropnaCol df c)) →
        q.2 < p.2 →
        List.Sublist [p, q] (sortByCountDesc (countValues (dropnaCol df c))) ∧
        List.Sublist [p, q] (sortByCountDesc (countValues (dropnaCol df' c)))) := by
  have hvals : (dropnaCol df c).Perm (dropnaCol df' c) := hp.filterMap _
  have hmem : ∀ q : String × Nat,
      q ∈ sortByCountDesc (countValues (dropnaCol df c)) ↔
      q ∈ sortByCountDesc (countValues (dropnaCol df' c)) := by
    intro q
    rw [mem_sortByCountDesc, mem_sortByCountDesc, countValues_eq_specCounts,
      countValues_eq_specCounts, mem_specCounts, mem_specCounts,
      hvals.mem_iff, hvals.count_eq]
  refine ⟨hmem, ?_⟩
  intro p q hp' hq' hlt
  exact ⟨sublist_pair_of_pairwise (pairwise_sortByCountDesc _) hp' hq' hlt,
    sublist_pair_of_pairwise (pairwise_sortByCountDesc _) ((hmem p).mp hp')
      ((hmem q).mp hq') hlt⟩

theorem C7_witness :
    (∀ q : String × Nat,
        q ∈ sortByCountDesc (countValues (dropnaCol exTableC7 "CVE")) ↔
        q ∈ sortByCountDesc (countValues (dropnaCol exTableC7R "CVE"))) ∧
    (∀ p q : String × Nat,
        p ∈ sortByCountDesc (countValues (dropnaCol exTableC7 "CVE")) →
        q ∈ sortByCountDesc (countValues (dropnaCol exTableC7 "CVE")) →
        q.2 < p.2 →
        List.Sublist [p, q] (sortByCountDesc (countValues (dropnaCol exTableC7 "CVE"))) ∧
        List.Sublist [p, q] (sortByCountDesc (countValues (dropnaCol exTableC7R "CVE")))) :=
  C7_perm_invariance_before_truncation exTableC7 exTableC7R "CVE" (by decide)

/-- C10: when `Severity` is present, the breakdown counts exactly the
non-null severity cells: the counts sum to the number of rows with a
non-null severity, which never exceeds `total_rows` and is strictly below
it whenever some merged row reads a null severity — in particular for any
row contributed by a table lacking the `Severity` column. -/
theorem C10_severity_breakdown_counts_nonnull (df : Table)
    (h : "Severity" ∈ df.cols) :
    ((computeStats df).severity_counts.map Prod.snd).sum =
      (dropnaCol df "Severity").length ∧
    (dropnaCol df "Severity").length ≤ (computeStats df).total_rows ∧
    (∀ r ∈ df.rows, getCell r "Severity" = none →
      (dropnaCol df "Severity").length < (computeStats df).total_rows) ∧
    (∀ (tables : List Table) (t : Table) (r : Row),
      pdConcat tables = Except.ok df → t ∈ tables → r ∈ t.rows →
      (∀ p ∈ r, p.1 ∈ t.cols) → "Severity" ∉ t.cols →
      (dropnaCol df "Severity").length < (computeStats df).total_rows) := by
  have hnull : ∀ r ∈ df.rows, getCell r "Severity" = none →
      (dropnaCol df "Severity").length < (computeStats df).total_rows := by
    intro r hr hcell
    show (dropnaCol df "Severity").length < df.rows.length
    exact length_filterMap_lt _ hr hcell
  refine ⟨?_, ?_, hnull, ?_⟩
  · simp only [computeStats]
    rw [if_pos h]
    unfold valueCounts
    rw [((perm_sortByCountDesc (countValues (dropnaCol df "Severity"))).map Prod.snd).sum_eq,
      countValues_eq_specCounts]
    exact sum_specCounts _
  · show (dropnaCol df "Severity").length ≤ df.rows.length
    exact List.length_filterMap_le _ _
  · intro tables t r hcat ht hr hkeys hsev
    by_cases htab : tables = []
    · rw [htab] at hcat
      exact absurd hcat (by simp [pdConcat])
    · have hdf : df = { cols := unionCols tables, rows := (tables.map Table.rows).flatten } := by
        unfold pdConcat at hcat
        rw [if_neg htab] at hcat
        exact (Except.ok.injEq _ _).mp hcat.symm ▸ rfl
      have hrdf : r ∈ df.rows := by
        rw [hdf]
        exact List.mem_flatten.mpr ⟨t.rows, List.mem_map_of_mem Table.rows ht, hr⟩
      have hcell : getCell r "Severity" = none := by
        unfold getCell
        rw [rowLookup_eq_none]
        intro p hp hpc
        exact hsev (by rw [← hpc]; exact hkeys p hp)
      exact hnull r hrdf hcell

theorem C10_witness :
    "Severity" ∈ exTableC10.cols ∧
    (((computeStats exTableC10).severity_counts.map Prod.snd).sum =
      (dropnaCol exTableC10 "Severity").length ∧
    (dropnaCol exTableC10 "Severity").length ≤ (computeStats exTableC10).total_rows ∧
    (∀ r ∈ exTableC10.rows, getCell r "Severity" = none →
      (dropnaCol exTableC10 "Severity").length < (computeStats exTableC10).total_rows) ∧
    (∀ (tables : List Table) (t : Table) (r : Row),
      pdConcat tables = Except.ok exTableC10 → t ∈ tables → r ∈ t.rows →
      (∀ p ∈ r, p.1 ∈ t.cols) → "Severity" ∉ t.cols →
      (dropnaCol exTableC10 "Severity").length < (computeStats exTableC10).total_rows)) :=
  ⟨by decide, C10_severity_breakdown_counts_nonnull exTableC10 (by decide)⟩

/-- C4: a file whose parse fails outright (yielding no table) never makes
the run raise: the caller-visible result is exactly the one of the run
without that file — so the report reflects precisely the files that parsed
— the run still succeeds, and the failure is printed as one error line in
its position. -/
theorem C4_one_bad_file_keeps_run_alive (generate : String → String) (now : String)
    (pre post : List SourceFile) (bad : SourceFile) (e : String)
    (htab : bad.tables = []) (herr : bad.err = some e) (helig : eligible bad = true)
    (hne : (loadAll (pre ++ post)).1 ≠ []) :
    (processFiles generate now (DirState.dir (pre ++ bad :: post))).1 =
      (processFiles generate now (DirState.dir (pre ++ post))).1 ∧
    (∃ a : Analysis,
      (processFiles generate now (DirState.dir (pre ++ post))).1 = Except.ok a) ∧
    (processFiles generate now (DirState.dir (pre ++ bad :: post))).2 =
      (loadAll pre).2 ++ ("Error reading " ++ bad.name ++ ": " ++ e) :: (loadAll post).2 := by
  have hbadT : fileTables bad = [] := by simp [fileTables, helig, htab]
  have hbadM : fileMsgs bad = ["Error reading " ++ bad.name ++ ": " ++ e] := by
    simp [fileMsgs, helig, herr]
  have htables : (loadAll (pre ++ bad :: post)).1 = (loadAll (pre ++ post)).1 := by
    simp [loadAll_eq, hbadT]
  refine ⟨processFiles_fst_congr generate now htables, ?_, ?_⟩
  · simp only [processFiles, globEntries]
    unfold pdConcat
    rw [if_neg hne]
    exact ⟨_, rfl⟩
  · rw [processFiles_snd]
    simp [loadAll_eq, hbadM]

theorem C4_witness :
    (exBadFile.tables = [] ∧ exBadFile.err = some "bad header" ∧
      eligible exBadFile = true ∧ (loadAll ([exFileA] ++ [exFileB])).1 ≠ []) ∧
    ((processFiles (fun _ => "") "ts" (DirState.dir ([exFileA] ++ exBadFile :: [exFileB]))).1 =
      (processFiles (fun _ => "") "ts" (DirState.dir ([exFileA] ++ [exFileB]))).1 ∧
    (∃ a : Analysis,
      (processFiles (fun _ => "") "ts" (DirState.dir ([exFileA] ++ [exFileB]))).1 =
        Except.ok a) ∧
    (processFiles (fun _ => "") "ts" (DirState.dir ([exFileA] ++ exBadFile :: [exFileB]))).2 =
      (loadAll [exFileA]).2 ++
        ("Error reading " ++ exBadFile.name ++ ": " ++ "bad header") :: (loadAll [exFileB]).2) :=
  ⟨⟨rfl, rfl, by decide, by decide⟩,
   C4_one_bad_file_keeps_run_alive (fun _ => "") "ts" [exFileA] [exFileB] exBadFile
     "bad header" rfl rfl (by decide) (by decide)⟩

/-- C8 (counterexample): a run over a directory with a corrupt file
returns exactly the same value to its caller as the run without that file;
the failure shows up only in the printed output, so it is not exposed
alongside the statistics. -/
theorem C8_counterexample :
    (processFiles (fun _ => "") "ts" (DirState.dir [exFileA, exBadFile])).1 =
      (processFiles (fun _ => "") "ts" (DirState.dir [exFileA])).1 ∧
    (processFiles (fun _ => "") "ts" (DirState.dir [exFileA, exBadFile])).2 ≠
      (processFiles (fun _ => "") "ts" (DirState.dir [exFileA])).2 := by
  exact ⟨rfl, by decide⟩

/-- C8 (amended): load failures are only printed by the pipeline — each
failing eligible file contributes its error line to standard output — while
the value returned to the caller is a function of the loaded tables alone
and carries no record of the failures. -/
theorem C8_failures_printed_not_returned (generate : String → String) (now : String)
    (files files' : List SourceFile)
    (h : (loadAll files).1 = (loadAll files').1) :
    (processFiles generate now (DirState.dir files)).1 =
      (processFiles generate now (DirState.dir files')).1 ∧
    (∀ f ∈ files, eligible f = true → ∀ e, f.err = some e →
      ("Error reading " ++ f.name ++ ": " ++ e) ∈
        (processFiles generate now (DirState.dir files)).2) := by
  refine ⟨processFiles_fst_congr generate now h, ?_⟩
  intro f hf helig e herr
  rw [processFiles_snd, loadAll_eq]
  refine List.mem_flatten.mpr ⟨fileMsgs f, List.mem_map_of_mem fileMsgs hf, ?_⟩
  simp [fileMsgs, helig, herr]

theorem C8_witness :
    (loadAll [exFileA, exBadFile]).1 = (loadAll [exFileA]).1 ∧
    (processFiles (fun _ => "") "ts" (DirState.dir [exFileA, exBadFile])).1 =
      (processFiles (fun _ => "") "ts" (DirState.dir [exFileA])).1 ∧
    "Error reading data.csv: bad header" ∈
      (processFiles (fun _ => "") "ts" (DirState.dir [exFileA, exBadFile])).2 := by
  refine ⟨by decide, ?_, ?_⟩
  · exact (C8_failures_printed_not_returned (fun _ => "") "ts" [exFileA, exBadFile]
      [exFileA] (by decide)).1
  · exact (C8_failures_printed_not_returned (fun _ => "") "ts" [exFileA, exBadFile]
      [exFileA] (by decide)).2 exBadFile (by decide) (by decide) "bad header" rfl

theorem str_append_assoc (a b c : String) : a ++ b ++ c = a ++ (b ++ c) :=
  String.ext (by simp [List.append_assoc])

theorem containsInOrder_here (t rest : String) {ts : List String}
    (h : ContainsInOrder ts rest) : ContainsInOrder (t :: ts) (t ++ rest) :=
  ⟨"", rest, rfl, h⟩

theorem containsInOrder_skip (x : String) {ts : List String} {s : String}
    (h : ContainsInOrder ts s) : ContainsInOrder ts (x ++ s) := by
  cases ts with
  | nil => trivial
  | cons t ts =>
    obtain ⟨pre, rest, hs, h2⟩ := h
    exact ⟨x ++ pre, rest, by rw [hs]; simp [str_append_assoc], h2⟩

/-- C9: the summary formatter is a pure function — equal statistics give
the equal text on any two runs — and its output contains, in order, the
total row count, the severity breakdown, and the four rankings each
directly under its semantic label. -/
theorem C9_summary_deterministic_fixed_structure (s t : Stats) (hst : s = t) :
    summaryInfo s = summaryInfo t ∧
    ContainsInOrder
      ["Total vulnerabilities recorded: " ++ toString s.total_rows,
       "Severity Breakdown: " ++ pyDict s.severity_counts,
       "Most Frequent Vulnerabilities:\n" ++ pyList s.top_vulnerabilities,
       "Most Impacted Operating Systems:\n" ++ pyList s.impacted_os,
       "Most Affected Software:\n" ++ pyList s.affected_software,
       "Most Repeated CVEs:\n" ++ pyList s.cve_counts]
      (summaryInfo s) := by
  refine ⟨by rw [hst], ?_⟩
  have hsi : summaryInfo s =
      ("Total vulnerabilities recorded: " ++ toString s.total_rows) ++
      ("\n\n" ++ (("Severity Breakdown: " ++ pyDict s.severity_counts) ++
      ("\n\nTop 5 " ++ (("Most Frequent Vulnerabilities:\n" ++ pyList s.top_vulnerabilities) ++
      ("\n\nTop 5 " ++ (("Most Impacted Operating Systems:\n" ++ pyList s.impacted_os) ++
      ("\n\nTop 5 " ++ (("Most Affected Software:\n" ++ pyList s.affected_software) ++
      ("\n\n" ++ (("Most Repeated CVEs:\n" ++ pyList s.cve_counts) ++ "\n")))))))))) := by
    apply String.ext
    simp only [summaryInfo, String.data_append, List.append_assoc]
    rfl
  rw [hsi]
  apply containsInOrder_here
  apply containsInOrder_skip
  apply containsInOrder_here
  apply containsInOrder_skip
  apply containsInOrder_here
  apply containsInOrder_skip
  apply containsInOrder_here
  apply containsInOrder_skip
  apply containsInOrder_here
  apply containsInOrder_skip
  apply containsInOrder_here
  trivial

theorem C9_witness :
    summaryInfo (computeStats exTableC6) = summaryInfo (computeStats exTableC6) ∧
    ContainsInOrder
      ["Total vulnerabilities recorded: " ++
         toString (computeStats exTableC6).total_rows,
       "Severity Breakdown: " ++ pyDict (computeStats exTableC6).severity_counts,
       "Most Frequent Vulnerabilities:\n" ++
         pyList (computeStats exTableC6).top_vulnerabilities,
       "Most Impacted Operating Systems:\n" ++
         pyList (computeStats exTableC6).impacted_os,
       "Most Affected Software:\n" ++
         pyList (computeStats exTableC6).affected_software,
       "Most Repeated CVEs:\n" ++ pyList (computeStats exTableC6).cve_counts]
      (summaryInfo (computeStats exTableC6)) :=
  C9_summary_deterministic_fixed_structure (computeStats exTableC6)
    (computeStats exTableC6) rfl

end ReportGen
